import Mathlib

/-!
Verification of the database seed route (`src/app/seed/route.ts`).

The route is a single GET handler that (a) checks the `POSTGRES_URL`
configuration value, (b) probes connectivity with bounded retries, (c) runs
four seed procedures (users, customers, invoices, revenue) inside one
transaction, and (d) renders an HTML status page, closing the connection in
a `finally` step.

The embedding below models:
  * the static sample data module (`placeholder-data`, an external
    collaborator not present under `src/`) from the data model in the spec;
  * the Postgres database visible to the route as four optional tables
    (`none` = the table does not exist) plus a counter driving
    `uuid_generate_v4()` defaults, with `CREATE TABLE IF NOT EXISTS`,
    `ON CONFLICT (col) DO NOTHING` and unique-constraint violations given
    their documented semantics;
  * `bcrypt.hash` as a stand-in that tags the cost and keeps the statement
    `hash ≠ plaintext` provable;
  * the observable actions of a run (probe attempts, delays, DDL, row
    inserts, transaction control, releasing the connection) as a trace of
    events.
-/

namespace SeedRoute

/-- Equality of `Except` results is decidable; used to evaluate concrete
runs of the model inside closed theorems. -/
instance instDecEqExcept {ε α : Type} [DecidableEq ε] [DecidableEq α] :
    DecidableEq (Except ε α)
  | .ok a, .ok b =>
    if h : a = b then .isTrue (by rw [h]) else .isFalse (by intro hc; cases hc; exact h rfl)
  | .error a, .error b =>
    if h : a = b then .isTrue (by rw [h]) else .isFalse (by intro hc; cases hc; exact h rfl)
  | .ok _, .error _ => .isFalse (by intro hc; cases hc)
  | .error _, .ok _ => .isFalse (by intro hc; cases hc)

/-! ## Sample data records

Modelled from the spec: the static sample-data module is an upstream
collaborator outside `src/`; the record shapes follow §3 of the spec
(User: id, name, unique email, password; Customer: id, name, email, image
reference; Invoice: id, customer reference, integer amount, status label,
date; Revenue: unique month label, integer amount). -/

structure User where
  id : String
  name : String
  email : String
  password : String
deriving DecidableEq, Repr

structure Customer where
  id : String
  name : String
  email : String
  image_url : String
deriving DecidableEq, Repr

structure InvoiceData where
  id : String
  customer_id : String
  amount : Int
  status : String
  date : String
deriving DecidableEq, Repr

structure RevenueData where
  month : String
  revenue : Int
deriving DecidableEq, Repr

structure SampleData where
  users : List User
  customers : List Customer
  invoices : List InvoiceData
  revenue : List RevenueData
deriving DecidableEq, Repr

/-! ## Database state

Each table is `Option (List row)`: `none` while the table does not exist,
`some rows` afterwards, rows in insertion order.  `nextId` drives the
`uuid_generate_v4()` column default used by the invoices insert (which
names no `id` column). -/

structure UserRow where
  id : String
  name : String
  email : String
  password : String
deriving DecidableEq, Repr

structure CustomerRow where
  id : String
  name : String
  email : String
  image_url : String
deriving DecidableEq, Repr

structure InvoiceRow where
  id : String
  customer_id : String
  amount : Int
  status : String
  date : String
deriving DecidableEq, Repr

structure RevenueRow where
  month : String
  revenue : Int
deriving DecidableEq, Repr

structure DB where
  users : Option (List UserRow)
  customers : Option (List CustomerRow)
  invoices : Option (List InvoiceRow)
  revenue : Option (List RevenueRow)
  nextId : Nat
deriving DecidableEq, Repr

def emptyDB : DB := ⟨none, none, none, none, 0⟩

/-- Stand-in for `uuid_generate_v4()`: the `n`-th generated identifier.
Distinctness of the generated values (the only property the route relies
on) is recovered from their lengths. -/
def genUuid (n : Nat) : String :=
  "uuid-" ++ String.mk (List.replicate n '*')

def usersCount (db : DB) : Nat := (db.users.getD []).length
def customersCount (db : DB) : Nat := (db.customers.getD []).length
def invoicesCount (db : DB) : Nat := (db.invoices.getD []).length
def revenueCount (db : DB) : Nat := (db.revenue.getD []).length

/-- Modelled from the spec: `bcrypt.hash(password, cost)` (the bcrypt
library is outside `src/`).  The stand-in is deterministic (the real
function salts) and records the cost prefix, so that the seeded value is a
function of the plaintext and cost and is never equal to the plaintext. -/
def bcrypt_hash (password : String) (cost : Nat) : String :=
  "$2b$" ++ toString cost ++ "$" ++ password

/-! ## Observable events of a run -/

inductive TableName where
  | users
  | customers
  | invoices
  | revenue
deriving DecidableEq, Repr

inductive Ev where
  /-- One `SELECT 1 as test` connectivity probe, raced against a timeout. -/
  | probeAttempt (timeoutMs : Nat)
  /-- A `setTimeout` pause between retries. -/
  | delay (ms : Nat)
  /-- Statement `CREATE EXTENSION IF NOT EXISTS "uuid-ossp"`. -/
  | createExtension
  /-- Statement `CREATE TABLE IF NOT EXISTS`. -/
  | createTable (t : TableName)
  /-- One `INSERT ... ON CONFLICT ... DO NOTHING` statement. -/
  | insertRow (t : TableName)
  | beginTx
  | commitTx
  | rollbackTx
  /-- Call `sql.end()`, releasing the connection resource. -/
  | release
deriving DecidableEq, Repr

/-- Which table a database event touches, if any. -/
def tableOf : Ev → Option TableName
  | .createTable t => some t
  | .insertRow t => some t
  | _ => none

/-- Events that issue a query against the database. -/
def isDbCall : Ev → Bool
  | .probeAttempt _ => true
  | .createExtension => true
  | .createTable _ => true
  | .insertRow _ => true
  | .beginTx => true
  | .commitTx => true
  | .rollbackTx => true
  | _ => false

/-- Schema or seed statements (DDL, inserts, transaction control). -/
def isSchemaOrSeedCall : Ev → Bool
  | .createExtension => true
  | .createTable _ => true
  | .insertRow _ => true
  | .beginTx => true
  | .commitTx => true
  | .rollbackTx => true
  | _ => false

def isProbe : Ev → Bool
  | .probeAttempt _ => true
  | _ => false

def isRelease : Ev → Bool
  | .release => true
  | _ => false

/-! ## Seed procedures

Each mirrors the corresponding function of `route.ts`: create the
extension / table if missing, then one insert statement per sample record.
The inserts of one procedure are issued as `Promise.all` over a pool of
one connection, which serializes them; they are embedded in list order. -/

/-- Statement `INSERT INTO users (id, name, email, password) VALUES ... ON CONFLICT (id)
DO NOTHING`.  A conflict on the `id` primary key is absorbed by the
`ON CONFLICT` clause; a conflict on the `email UNIQUE` column is not
arbitrated by that clause and raises. -/
def insertUser (u : User) (hashed : String) (db : DB) : Except String DB :=
  match db.users with
  | none => .error "relation users does not exist"
  | some rows =>
    if u.id ∈ rows.map UserRow.id then
      .ok db
    else if u.email ∈ rows.map UserRow.email then
      .error "duplicate key value violates unique constraint users_email_key"
    else
      .ok { db with users := some (rows ++ [⟨u.id, u.name, u.email, hashed⟩]) }

/-- The per-user statements of `seedUsers`.  The source hashes all
passwords with `bcrypt.hash(user.password, 10)` via `users.map` and pairs
`hashedPasswords[index]` with `users[index]`, which is the positional
pairing written here inline. -/
def insertUsersLoop : List User → DB → List Ev × Except String DB
  | [], db => ([], .ok db)
  | u :: rest, db =>
    match insertUser u (bcrypt_hash u.password 10) db with
    | .error e => ([.insertRow .users], .error e)
    | .ok db1 =>
      let r := insertUsersLoop rest db1
      (.insertRow .users :: r.1, r.2)

def createUsersTable (db : DB) : DB :=
  match db.users with
  | none => { db with users := some [] }
  | some _ => db

def seedUsers (us : List User) (db : DB) : List Ev × Except String DB :=
  let r := insertUsersLoop us (createUsersTable db)
  (.createExtension :: .createTable .users :: r.1, r.2)

/-- Statement `INSERT INTO customers (id, name, email, image_url) ... ON CONFLICT (id)
DO NOTHING`; `id` is the only unique column of `customers`. -/
def insertCustomer (c : Customer) (db : DB) : Except String DB :=
  match db.customers with
  | none => .error "relation customers does not exist"
  | some rows =>
    if c.id ∈ rows.map CustomerRow.id then
      .ok db
    else
      .ok { db with customers := some (rows ++ [⟨c.id, c.name, c.email, c.image_url⟩]) }

def insertCustomersLoop : List Customer → DB → List Ev × Except String DB
  | [], db => ([], .ok db)
  | c :: rest, db =>
    match insertCustomer c db with
    | .error e => ([.insertRow .customers], .error e)
    | .ok db1 =>
      let r := insertCustomersLoop rest db1
      (.insertRow .customers :: r.1, r.2)

def createCustomersTable (db : DB) : DB :=
  match db.customers with
  | none => { db with customers := some [] }
  | some _ => db

def seedCustomers (cs : List Customer) (db : DB) : List Ev × Except String DB :=
  let r := insertCustomersLoop cs (createCustomersTable db)
  (.createExtension :: .createTable .customers :: r.1, r.2)

/-- Statement `INSERT INTO invoices (customer_id, amount, status, date) VALUES ...
ON CONFLICT (id) DO NOTHING`.  The statement names no `id` column, so the
`id UUID DEFAULT uuid_generate_v4()` default supplies a fresh identifier
and the `id` field of the sample record is never used. -/
def insertInvoice (inv : InvoiceData) (db : DB) : Except String DB :=
  match db.invoices with
  | none => .error "relation invoices does not exist"
  | some rows =>
    let newId := genUuid db.nextId
    if newId ∈ rows.map InvoiceRow.id then
      .ok { db with nextId := db.nextId + 1 }
    else
      .ok { db with
              invoices := some (rows ++ [⟨newId, inv.customer_id, inv.amount, inv.status, inv.date⟩]),
              nextId := db.nextId + 1 }

def insertInvoicesLoop : List InvoiceData → DB → List Ev × Except String DB
  | [], db => ([], .ok db)
  | inv :: rest, db =>
    match insertInvoice inv db with
    | .error e => ([.insertRow .invoices], .error e)
    | .ok db1 =>
      let r := insertInvoicesLoop rest db1
      (.insertRow .invoices :: r.1, r.2)

def createInvoicesTable (db : DB) : DB :=
  match db.invoices with
  | none => { db with invoices := some [] }
  | some _ => db

def seedInvoices (invs : List InvoiceData) (db : DB) : List Ev × Except String DB :=
  let r := insertInvoicesLoop invs (createInvoicesTable db)
  (.createExtension :: .createTable .invoices :: r.1, r.2)

/-- Statement `INSERT INTO revenue (month, revenue) ... ON CONFLICT (month) DO NOTHING`;
`month` is the declared unique column and the conflict clause covers it. -/
def insertRevenue (rv : RevenueData) (db : DB) : Except String DB :=
  match db.revenue with
  | none => .error "relation revenue does not exist"
  | some rows =>
    if rv.month ∈ rows.map RevenueRow.month then
      .ok db
    else
      .ok { db with revenue := some (rows ++ [⟨rv.month, rv.revenue⟩]) }

def insertRevenueLoop : List RevenueData → DB → List Ev × Except String DB
  | [], db => ([], .ok db)
  | rv :: rest, db =>
    match insertRevenue rv db with
    | .error e => ([.insertRow .revenue], .error e)
    | .ok db1 =>
      let r := insertRevenueLoop rest db1
      (.insertRow .revenue :: r.1, r.2)

def createRevenueTable (db : DB) : DB :=
  match db.revenue with
  | none => { db with revenue := some [] }
  | some _ => db

/-- Procedure `seedRevenue` issues no `CREATE EXTENSION` statement. -/
def seedRevenue (rvs : List RevenueData) (db : DB) : List Ev × Except String DB :=
  let r := insertRevenueLoop rvs (createRevenueTable db)
  (.createTable .revenue :: r.1, r.2)

/-! ## Transaction -/

/-- Sequence two traced database steps, stopping at the first error. -/
def seqE (r : List Ev × Except String DB) (f : DB → List Ev × Except String DB) :
    List Ev × Except String DB :=
  match r with
  | (tr, .error e) => (tr, .error e)
  | (tr, .ok db) => (tr ++ (f db).1, (f db).2)

/-- The body of the `sql.begin` callback: the four seed procedures awaited
one after the other, in the order users, customers, invoices, revenue. -/
def seedBody (data : SampleData) (db : DB) : List Ev × Except String DB :=
  seqE (seedUsers data.users db) (fun db =>
    seqE (seedCustomers data.customers db) (fun db =>
      seqE (seedInvoices data.invoices db) (fun db =>
        seedRevenue data.revenue db)))

/-- Wrapper `sql.begin`: run the body in a transaction.  Per the documented
behaviour of the postgres client, an error inside the callback rolls the transaction
back (no state of the run is committed) and is rethrown; the caller
therefore observes the pre-transaction state on the error path. -/
def seedAllTx (data : SampleData) (db : DB) : List Ev × Except String DB :=
  match seedBody data db with
  | (tr, .ok db1) => (.beginTx :: tr ++ [.commitTx], .ok db1)
  | (tr, .error e) => (.beginTx :: tr ++ [.rollbackTx], .error e)

/-! ## Connectivity prelude -/

/-- Timeout passed to `withTimeout` around the probe query. -/
def probeTimeoutMs : Nat := 15000

/-- Delay between retries (`setTimeout(resolve, 3000)`). -/
def retryDelayMs : Nat := 3000

/-- The message `withTimeout` rejects with when the race times out. -/
def timeoutMsg : String :=
  "Operation timed out after " ++ toString probeTimeoutMs ++ "ms"

/-- The `for` loop of `testConnection`, counted by the number `remaining =
maxRetries - i` of attempts still allowed (the source iterates `i` from `0`
to `maxRetries - 1`).  `probe i` is the outcome of the `i`-th
`SELECT 1 as test` attempt, raced against the 15000 ms timeout.  The source
rethrows the error when `i === maxRetries - 1`, i.e. when exactly one
attempt remains; otherwise it sleeps 3000 ms and retries. -/
def testConnectionLoop (probe : Nat → Except String Unit) :
    Nat → Nat → List Ev × Except String Unit
  | _, 0 => ([], .ok ())
  | i, remaining + 1 =>
    match probe i with
    | .ok _ => ([.probeAttempt probeTimeoutMs], .ok ())
    | .error e =>
      match remaining with
      | 0 => ([.probeAttempt probeTimeoutMs], .error e)
      | _ + 1 =>
        let r := testConnectionLoop probe (i + 1) remaining
        (.probeAttempt probeTimeoutMs :: .delay retryDelayMs :: r.1, r.2)

/-- Function `testConnection(maxRetries = 3)`; the route calls it with the default. -/
def testConnection (probe : Nat → Except String Unit) (maxRetries : Nat) :
    List Ev × Except String Unit :=
  testConnectionLoop probe 0 maxRetries

/-! ## Response rendering -/

structure Response where
  status : Nat
  contentType : String
  body : String
deriving DecidableEq, Repr

/-- The common HTML skeleton shared verbatim by the four template literals
of the route (title, heading class, heading, message paragraph vary). -/
def renderPage (title cls h1 para : String) : String :=
  "<!DOCTYPE html>\n<html>\n  <head>\n    <title>" ++ title ++
  "</title>\n    <style>\n      body \x7b font-family: Arial, sans-serif; padding: 20px; \x7d\n      .success \x7b color: green; \x7d\n      .error \x7b color: red; \x7d\n    </style>\n  </head>\n  <body>\n    <h1 class=\"" ++
  cls ++ "\">" ++ h1 ++ "</h1>\n    <p>" ++ para ++
  "</p>\n    <p><a href=\"/dashboard\">Go to Dashboard</a></p>\n  </body>\n</html>"

def envErrorBody : String :=
  renderPage "Environment Variable Error" "error" "❌ Environment Variable Error"
    "POSTGRES_URL environment variable is not set"

/-- The connection-error page; `msg` is interpolated via the template
literal `Error: ${...message}` with no transformation. -/
def connErrorBody (msg : String) : String :=
  renderPage "Database Connection Error" "error" "❌ Database Connection Failed"
    ("Error: " ++ msg)

/-- The seeding-error page; `msg` is interpolated via the template literal
`Error: ${...message}` with no transformation. -/
def seedErrorBody (msg : String) : String :=
  renderPage "Database Seeding Error" "error" "❌ Database Seeding Failed"
    ("Error: " ++ msg)

def successBody : String :=
  renderPage "Database Seeded Successfully" "success" "✅ Database Seeded Successfully!"
    "All tables and data have been created successfully."

def envErrorResponse : Response := ⟨500, "text/html", envErrorBody⟩

def connErrorResponse (msg : String) : Response := ⟨500, "text/html", connErrorBody msg⟩

def seedErrorResponse (msg : String) : Response := ⟨500, "text/html", seedErrorBody msg⟩

/-- The success `Response` carries no explicit status, hence HTTP 200. -/
def successResponse : Response := ⟨200, "text/html", successBody⟩

/-! ## The GET handler -/

/-- The request environment: the one required configuration value. -/
structure Env where
  postgresUrl : Option String
deriving DecidableEq, Repr

/-- The `GET` handler.  Returns the trace of observable events, the
database state visible after the request, and the HTTP response.

Control flow mirrors the source: the missing-`POSTGRES_URL` check returns
the environment-error page before any query; a `testConnection` failure is
caught by the inner `try` and returns the connection-error page (errors
are modelled by their message, the `instanceof Error` branch); an error
thrown out of `sql.begin` is caught by the outer `catch` and returns the
seeding-error page, the transaction having been rolled back; the `finally`
block runs `sql.end()` on every path. -/
def GET (env : Env) (probe : Nat → Except String Unit) (data : SampleData) (db0 : DB) :
    List Ev × DB × Response :=
  match env.postgresUrl with
  | none => ([.release], db0, envErrorResponse)
  | some _ =>
    match testConnection probe 3 with
    | (tr1, .error e) => (tr1 ++ [.release], db0, connErrorResponse e)
    | (tr1, .ok _) =>
      match seedAllTx data db0 with
      | (tr2, .error e) => (tr1 ++ tr2 ++ [.release], db0, seedErrorResponse e)
      | (tr2, .ok db1) => (tr1 ++ tr2 ++ [.release], db1, successResponse)

/-! ## Concrete sample data

Modelled from the spec: the placeholder-data module is outside `src/`;
§8 fixes one user "Admin" with email "admin@example.com", §3 fixes the
record shapes.  The remaining values are representative constants. -/

def sampleUsers : List User :=
  [⟨"410544b2-4001-4271-9855-fec4b6a6442a", "Admin", "admin@example.com", "123456"⟩]

def sampleCustomers : List Customer :=
  [⟨"d6e15727-9fe1-4961-8c5b-ea44a9bd81aa", "Evil Rabbit", "evil@rabbit.com",
      "/customers/evil-rabbit.png"⟩,
   ⟨"3958dc9e-712f-4377-85e9-fec4b6a6442a", "Delba de Oliveira", "delba@oliveira.com",
      "/customers/delba-de-oliveira.png"⟩]

def sampleInvoices : List InvoiceData :=
  [⟨"ba4a9e71-3206-493e-84b4-35a6b6e5a22f", "d6e15727-9fe1-4961-8c5b-ea44a9bd81aa",
      15795, "pending", "2022-12-06"⟩,
   ⟨"725c4d1d-41f2-4c7d-b921-6c7c4b6e5a10", "3958dc9e-712f-4377-85e9-fec4b6a6442a",
      20348, "paid", "2022-11-14"⟩]

def sampleRevenue : List RevenueData :=
  [⟨"Jan", 2000⟩, ⟨"Feb", 1800⟩]

def sampleData : SampleData :=
  ⟨sampleUsers, sampleCustomers, sampleInvoices, sampleRevenue⟩

/-- Sample data with two distinct users sharing one email: the second user
insert violates the `email UNIQUE` constraint (not arbitrated by
`ON CONFLICT (id)`), so the seeding transaction fails partway. -/
def dupEmailData : SampleData :=
  { sampleData with
      users := [⟨"00000000-0000-0000-0000-000000000001", "A", "same@example.com", "pw1"⟩,
                ⟨"00000000-0000-0000-0000-000000000002", "B", "same@example.com", "pw2"⟩] }

/-- Running the seed transaction twice in a row, as two invocations of the
route against the same database (the second starting from the state the
first left behind). -/
def runTwice (data : SampleData) (db : DB) : Except String DB :=
  match (seedAllTx data db).2 with
  | .error e => .error e
  | .ok db1 => (seedAllTx data db1).2

/-- The row count of each of the four tables. -/
def counts (db : DB) : Nat × Nat × Nat × Nat :=
  (usersCount db, customersCount db, invoicesCount db, revenueCount db)

/-! ## Expected results (used to state the theorems) -/

/-- The user row the seed inserts for sample user `u`. -/
def mkUserRow (u : User) : UserRow :=
  ⟨u.id, u.name, u.email, bcrypt_hash u.password 10⟩

/-- The customer row the seed inserts for sample customer `c`. -/
def mkCustomerRow (c : Customer) : CustomerRow :=
  ⟨c.id, c.name, c.email, c.image_url⟩

/-- The revenue row the seed inserts for sample record `rv`. -/
def mkRevenueRow (rv : RevenueData) : RevenueRow :=
  ⟨rv.month, rv.revenue⟩

/-- The invoice rows the seed inserts when the generator counter stands at
`k`: each carries a database-generated identifier, not the sample one. -/
def genInvoiceRows : Nat → List InvoiceData → List InvoiceRow
  | _, [] => []
  | k, inv :: rest =>
    ⟨genUuid k, inv.customer_id, inv.amount, inv.status, inv.date⟩ :: genInvoiceRows (k + 1) rest

/-- Consecutive generated identifiers: `n` of them, starting at counter `k`. -/
def genUuids : Nat → Nat → List String
  | _, 0 => []
  | k, n + 1 => genUuid k :: genUuids (k + 1) n

/-- The database a successful seeding run produces from an empty database. -/
def seededDB (data : SampleData) : DB :=
  { users := some (data.users.map mkUserRow),
    customers := some (data.customers.map mkCustomerRow),
    invoices := some (genInvoiceRows 0 data.invoices),
    revenue := some (data.revenue.map mkRevenueRow),
    nextId := data.invoices.length }

/-! ## Lemmas -/


lemma insertUsersLoop_ok : ∀ (us : List User) (db : DB) (rows : List UserRow),
    db.users = some rows →
    (rows.map UserRow.id ++ us.map User.id).Nodup →
    (rows.map UserRow.email ++ us.map User.email).Nodup →
    insertUsersLoop us db =
      (us.map fun _ => Ev.insertRow .users,
       .ok { db with users := some (rows ++ us.map mkUserRow) })
  | [], db, rows, hdb, _, _ => by
    obtain ⟨dbu, dbc, dbi, dbr, dbn⟩ := db
    simp only [DB.users] at hdb
    subst hdb
    simp [insertUsersLoop]
  | u :: rest, db, rows, hdb, hids, hems => by
    obtain ⟨dbu, dbc, dbi, dbr, dbn⟩ := db
    simp only [DB.users] at hdb
    subst hdb
    have hdisj := List.disjoint_of_nodup_append hids
    have hdisj' := List.disjoint_of_nodup_append hems
    have h1 : u.id ∉ rows.map UserRow.id := by
      intro hmem
      exact hdisj hmem (by simp)
    have h2 : u.email ∉ rows.map UserRow.email := by
      intro hmem
      exact hdisj' hmem (by simp)
    have hstep : insertUser u (bcrypt_hash u.password 10) ⟨some rows, dbc, dbi, dbr, dbn⟩ =
        .ok ⟨some (rows ++ [⟨u.id, u.name, u.email, bcrypt_hash u.password 10⟩]),
             dbc, dbi, dbr, dbn⟩ := by
      simp [insertUser, h1, h2]
    have hih := insertUsersLoop_ok rest
      ⟨some (rows ++ [mkUserRow u]), dbc, dbi, dbr, dbn⟩ (rows ++ [mkUserRow u]) rfl
      (by simpa [mkUserRow, List.append_assoc] using hids)
      (by simpa [mkUserRow, List.append_assoc] using hems)
    simp only [insertUsersLoop, hstep]
    rw [show (⟨some (rows ++ [⟨u.id, u.name, u.email, bcrypt_hash u.password 10⟩]),
          dbc, dbi, dbr, dbn⟩ : DB) =
        ⟨some (rows ++ [mkUserRow u]), dbc, dbi, dbr, dbn⟩ from rfl]
    rw [hih]
    simp [List.append_assoc, mkUserRow]

lemma genUuid_length (n : Nat) : (genUuid n).length = 5 + n := by
  simp [genUuid, String.length_append, String.length_mk, List.length_replicate]
  decide

lemma insertCustomersLoop_ok : ∀ (cs : List Customer) (db : DB) (rows : List CustomerRow),
    db.customers = some rows →
    (rows.map CustomerRow.id ++ cs.map Customer.id).Nodup →
    insertCustomersLoop cs db =
      (cs.map fun _ => Ev.insertRow .customers,
       .ok { db with customers := some (rows ++ cs.map mkCustomerRow) })
  | [], db, rows, hdb, _ => by
    obtain ⟨dbu, dbc, dbi, dbr, dbn⟩ := db
    simp only [DB.customers] at hdb
    subst hdb
    simp [insertCustomersLoop]
  | c :: rest, db, rows, hdb, hids => by
    obtain ⟨dbu, dbc, dbi, dbr, dbn⟩ := db
    simp only [DB.customers] at hdb
    subst hdb
    have hdisj := List.disjoint_of_nodup_append hids
    have h1 : c.id ∉ rows.map CustomerRow.id := by
      intro hmem
      exact hdisj hmem (by simp)
    have hstep : insertCustomer c ⟨dbu, some rows, dbi, dbr, dbn⟩ =
        .ok ⟨dbu, some (rows ++ [mkCustomerRow c]), dbi, dbr, dbn⟩ := by
      simp [insertCustomer, h1, mkCustomerRow]
    have hih := insertCustomersLoop_ok rest
      ⟨dbu, some (rows ++ [mkCustomerRow c]), dbi, dbr, dbn⟩ (rows ++ [mkCustomerRow c]) rfl
      (by simpa [mkCustomerRow, List.append_assoc] using hids)
    simp only [insertCustomersLoop, hstep]
    rw [hih]
    simp [List.append_assoc, mkCustomerRow]

lemma insertRevenueLoop_ok : ∀ (rvs : List RevenueData) (db : DB) (rows : List RevenueRow),
    db.revenue = some rows →
    (rows.map RevenueRow.month ++ rvs.map RevenueData.month).Nodup →
    insertRevenueLoop rvs db =
      (rvs.map fun _ => Ev.insertRow .revenue,
       .ok { db with revenue := some (rows ++ rvs.map mkRevenueRow) })
  | [], db, rows, hdb, _ => by
    obtain ⟨dbu, dbc, dbi, dbr, dbn⟩ := db
    simp only [DB.revenue] at hdb
    subst hdb
    simp [insertRevenueLoop]
  | rv :: rest, db, rows, hdb, hms => by
    obtain ⟨dbu, dbc, dbi, dbr, dbn⟩ := db
    simp only [DB.revenue] at hdb
    subst hdb
    have hdisj := List.disjoint_of_nodup_append hms
    have h1 : rv.month ∉ rows.map RevenueRow.month := by
      intro hmem
      exact hdisj hmem (by simp)
    have hstep : insertRevenue rv ⟨dbu, dbc, dbi, some rows, dbn⟩ =
        .ok ⟨dbu, dbc, dbi, some (rows ++ [mkRevenueRow rv]), dbn⟩ := by
      simp [insertRevenue, h1, mkRevenueRow]
    have hih := insertRevenueLoop_ok rest
      ⟨dbu, dbc, dbi, some (rows ++ [mkRevenueRow rv]), dbn⟩ (rows ++ [mkRevenueRow rv]) rfl
      (by simpa [mkRevenueRow, List.append_assoc] using hms)
    simp only [insertRevenueLoop, hstep]
    rw [hih]
    simp [List.append_assoc, mkRevenueRow]

lemma insertInvoicesLoop_ok : ∀ (invs : List InvoiceData) (db : DB) (rows : List InvoiceRow),
    db.invoices = some rows →
    (∀ r ∈ rows, r.id.length < 5 + db.nextId) →
    insertInvoicesLoop invs db =
      (invs.map fun _ => Ev.insertRow .invoices,
       .ok { db with invoices := some (rows ++ genInvoiceRows db.nextId invs),
                     nextId := db.nextId + invs.length })
  | [], db, rows, hdb, _ => by
    obtain ⟨dbu, dbc, dbi, dbr, dbn⟩ := db
    simp only [DB.invoices] at hdb
    subst hdb
    simp [insertInvoicesLoop, genInvoiceRows]
  | inv :: rest, db, rows, hdb, hlen => by
    obtain ⟨dbu, dbc, dbi, dbr, dbn⟩ := db
    simp only [DB.invoices] at hdb
    subst hdb
    simp only [DB.nextId] at hlen
    have h1 : genUuid dbn ∉ rows.map InvoiceRow.id := by
      intro hmem
      obtain ⟨r, hr, hid⟩ := List.mem_map.mp hmem
      have := hlen r hr
      have hl := congrArg String.length hid
      rw [genUuid_length] at hl
      omega
    have hstep : insertInvoice inv ⟨dbu, dbc, some rows, dbr, dbn⟩ =
        .ok ⟨dbu, dbc,
             some (rows ++ [⟨genUuid dbn, inv.customer_id, inv.amount, inv.status, inv.date⟩]),
             dbr, dbn + 1⟩ := by
      simp [insertInvoice, h1]
    have hinv' : ∀ r ∈ rows ++ [(⟨genUuid dbn, inv.customer_id, inv.amount, inv.status,
        inv.date⟩ : InvoiceRow)], r.id.length < 5 + (dbn + 1) := by
      intro r hr
      rcases List.mem_append.mp hr with h | h
      · have := hlen r h
        omega
      · simp at h
        subst h
        simp [genUuid_length]
    have hih := insertInvoicesLoop_ok rest
      ⟨dbu, dbc, some (rows ++ [⟨genUuid dbn, inv.customer_id, inv.amount, inv.status,
          inv.date⟩]), dbr, dbn + 1⟩
      (rows ++ [⟨genUuid dbn, inv.customer_id, inv.amount, inv.status, inv.date⟩]) rfl hinv'
    simp only [insertInvoicesLoop, hstep]
    rw [hih]
    simp [genInvoiceRows, List.append_assoc]
    omega

lemma seedUsers_ok (us : List User) (db : DB) (hdb : db.users = none)
    (hui : (us.map User.id).Nodup) (hue : (us.map User.email).Nodup) :
    seedUsers us db =
      (Ev.createExtension :: Ev.createTable .users :: us.map (fun _ => Ev.insertRow .users),
       .ok { db with users := some (us.map mkUserRow) }) := by
  obtain ⟨dbu, dbc, dbi, dbr, dbn⟩ := db
  simp only [DB.users] at hdb
  subst hdb
  have h := insertUsersLoop_ok us ⟨some [], dbc, dbi, dbr, dbn⟩ [] rfl
    (by simpa using hui) (by simpa using hue)
  simp only [seedUsers, createUsersTable]
  rw [h]
  simp

lemma seedCustomers_ok (cs : List Customer) (db : DB) (hdb : db.customers = none)
    (hci : (cs.map Customer.id).Nodup) :
    seedCustomers cs db =
      (Ev.createExtension :: Ev.createTable .customers ::
         cs.map (fun _ => Ev.insertRow .customers),
       .ok { db with customers := some (cs.map mkCustomerRow) }) := by
  obtain ⟨dbu, dbc, dbi, dbr, dbn⟩ := db
  simp only [DB.customers] at hdb
  subst hdb
  have h := insertCustomersLoop_ok cs ⟨dbu, some [], dbi, dbr, dbn⟩ [] rfl (by simpa using hci)
  simp only [seedCustomers, createCustomersTable]
  rw [h]
  simp

lemma seedInvoices_ok (invs : List InvoiceData) (db : DB) (hdb : db.invoices = none) :
    seedInvoices invs db =
      (Ev.createExtension :: Ev.createTable .invoices ::
         invs.map (fun _ => Ev.insertRow .invoices),
       .ok { db with invoices := some (genInvoiceRows db.nextId invs),
                     nextId := db.nextId + invs.length }) := by
  obtain ⟨dbu, dbc, dbi, dbr, dbn⟩ := db
  simp only [DB.invoices] at hdb
  subst hdb
  have h := insertInvoicesLoop_ok invs ⟨dbu, dbc, some [], dbr, dbn⟩ [] rfl (by simp)
  simp only [seedInvoices, createInvoicesTable]
  rw [h]
  simp

lemma seedRevenue_ok (rvs : List RevenueData) (db : DB) (hdb : db.revenue = none)
    (hrm : (rvs.map RevenueData.month).Nodup) :
    seedRevenue rvs db =
      (Ev.createTable .revenue :: rvs.map (fun _ => Ev.insertRow .revenue),
       .ok { db with revenue := some (rvs.map mkRevenueRow) }) := by
  obtain ⟨dbu, dbc, dbi, dbr, dbn⟩ := db
  simp only [DB.revenue] at hdb
  subst hdb
  have h := insertRevenueLoop_ok rvs ⟨dbu, dbc, dbi, some [], dbn⟩ [] rfl (by simpa using hrm)
  simp only [seedRevenue, createRevenueTable]
  rw [h]
  simp

lemma seedBody_emptyDB_ok (data : SampleData)
    (hui : (data.users.map User.id).Nodup)
    (hue : (data.users.map User.email).Nodup)
    (hci : (data.customers.map Customer.id).Nodup)
    (hrm : (data.revenue.map RevenueData.month).Nodup) :
    (seedBody data emptyDB).2 = .ok (seededDB data) := by
  have h1 : seedUsers data.users ⟨none, none, none, none, 0⟩ =
      (Ev.createExtension :: Ev.createTable .users ::
         data.users.map (fun _ => Ev.insertRow .users),
       .ok ⟨some (data.users.map mkUserRow), none, none, none, 0⟩) :=
    seedUsers_ok data.users ⟨none, none, none, none, 0⟩ rfl hui hue
  have h2 : seedCustomers data.customers
        ⟨some (data.users.map mkUserRow), none, none, none, 0⟩ =
      (Ev.createExtension :: Ev.createTable .customers ::
         data.customers.map (fun _ => Ev.insertRow .customers),
       .ok ⟨some (data.users.map mkUserRow), some (data.customers.map mkCustomerRow),
            none, none, 0⟩) :=
    seedCustomers_ok data.customers _ rfl hci
  have h3 : seedInvoices data.invoices
        ⟨some (data.users.map mkUserRow), some (data.customers.map mkCustomerRow),
         none, none, 0⟩ =
      (Ev.createExtension :: Ev.createTable .invoices ::
         data.invoices.map (fun _ => Ev.insertRow .invoices),
       .ok ⟨some (data.users.map mkUserRow), some (data.customers.map mkCustomerRow),
            some (genInvoiceRows 0 data.invoices), none, 0 + data.invoices.length⟩) :=
    seedInvoices_ok data.invoices _ rfl
  have h4 : seedRevenue data.revenue
        ⟨some (data.users.map mkUserRow), some (data.customers.map mkCustomerRow),
         some (genInvoiceRows 0 data.invoices), none, 0 + data.invoices.length⟩ =
      (Ev.createTable .revenue :: data.revenue.map (fun _ => Ev.insertRow .revenue),
       .ok ⟨some (data.users.map mkUserRow), some (data.customers.map mkCustomerRow),
            some (genInvoiceRows 0 data.invoices), some (data.revenue.map mkRevenueRow),
            0 + data.invoices.length⟩) :=
    seedRevenue_ok data.revenue _ rfl hrm
  show (seedBody data ⟨none, none, none, none, 0⟩).2 = .ok (seededDB data)
  simp only [seedBody]
  rw [h1]
  simp only [seqE]
  rw [h2]
  simp only [seqE]
  rw [h3]
  simp only [seqE]
  rw [h4]
  simp [seededDB]

lemma seedAllTx_emptyDB_ok (data : SampleData)
    (hui : (data.users.map User.id).Nodup)
    (hue : (data.users.map User.email).Nodup)
    (hci : (data.customers.map Customer.id).Nodup)
    (hrm : (data.revenue.map RevenueData.month).Nodup) :
    (seedAllTx data emptyDB).2 = .ok (seededDB data) := by
  have hb := seedBody_emptyDB_ok data hui hue hci hrm
  rcases h : seedBody data emptyDB with ⟨tr, r⟩
  rw [h] at hb
  simp only at hb
  subst hb
  simp [seedAllTx, h]

lemma genInvoiceRows_length : ∀ (invs : List InvoiceData) (k : Nat),
    (genInvoiceRows k invs).length = invs.length
  | [], _ => rfl
  | _ :: rest, k => by simp [genInvoiceRows, genInvoiceRows_length rest (k + 1)]

lemma genInvoiceRows_ids : ∀ (invs : List InvoiceData) (k : Nat),
    (genInvoiceRows k invs).map InvoiceRow.id = genUuids k invs.length
  | [], _ => rfl
  | _ :: rest, k => by simp [genInvoiceRows, genUuids, genInvoiceRows_ids rest (k + 1)]

lemma genUuids_mem_length : ∀ (n k : Nat) (s : String), s ∈ genUuids k n → 5 + k ≤ s.length
  | 0, _, _, h => by simp [genUuids] at h
  | n + 1, k, s, h => by
    simp only [genUuids, List.mem_cons] at h
    rcases h with h | h
    · subst h
      simp [genUuid_length]
    · have := genUuids_mem_length n (k + 1) s h
      omega

lemma genUuids_nodup : ∀ (n k : Nat), (genUuids k n).Nodup
  | 0, _ => by simp [genUuids]
  | n + 1, k => by
    simp only [genUuids, List.nodup_cons]
    refine ⟨fun hmem => ?_, genUuids_nodup n (k + 1)⟩
    have hlen := genUuids_mem_length n (k + 1) _ hmem
    rw [genUuid_length] at hlen
    omega

lemma map_id_mkUserRow (us : List User) :
    (us.map mkUserRow).map UserRow.id = us.map User.id := by
  simp [List.map_map, mkUserRow]

lemma map_email_mkUserRow (us : List User) :
    (us.map mkUserRow).map UserRow.email = us.map User.email := by
  simp [List.map_map, mkUserRow]

lemma map_password_mkUserRow (us : List User) :
    (us.map mkUserRow).map UserRow.password = us.map (fun u => bcrypt_hash u.password 10) := by
  simp [List.map_map, mkUserRow]

lemma map_id_mkCustomerRow (cs : List Customer) :
    (cs.map mkCustomerRow).map CustomerRow.id = cs.map Customer.id := by
  simp [List.map_map, mkCustomerRow]

lemma map_month_mkRevenueRow (rvs : List RevenueData) :
    (rvs.map mkRevenueRow).map RevenueRow.month = rvs.map RevenueData.month := by
  simp [List.map_map, mkRevenueRow]

lemma bcrypt_hash_length (pw : String) (cost : Nat) :
    (bcrypt_hash pw cost).length = 4 + (toString cost).length + 1 + pw.length := by
  have h4 : ("$2b$" : String).length = 4 := by decide
  have h1 : ("$" : String).length = 1 := by decide
  simp [bcrypt_hash, String.length_append, h4, h1]

lemma bcrypt_hash_ne (pw : String) (cost : Nat) : bcrypt_hash pw cost ≠ pw := by
  intro h
  have := congrArg String.length h
  rw [bcrypt_hash_length] at this
  omega

lemma testConnection_all_timeout (probe : Nat → Except String Unit) (msg : String)
    (hp : ∀ i, i < 3 → probe i = .error msg) :
    testConnection probe 3 =
      ([.probeAttempt probeTimeoutMs, .delay retryDelayMs, .probeAttempt probeTimeoutMs,
        .delay retryDelayMs, .probeAttempt probeTimeoutMs], .error msg) := by
  have h0 := hp 0 (by omega)
  have h1 := hp 1 (by omega)
  have h2 := hp 2 (by omega)
  simp [testConnection, testConnectionLoop, h0, h1, h2]

lemma testConnectionLoop_events (probe : Nat → Except String Unit) :
    ∀ (rem i : Nat) (e : Ev), e ∈ (testConnectionLoop probe i rem).1 →
      e = .probeAttempt probeTimeoutMs ∨ e = .delay retryDelayMs
  | 0, i, e, h => by simp [testConnectionLoop] at h
  | rem + 1, i, e, h => by
    simp only [testConnectionLoop] at h
    cases hp : probe i with
    | ok _ =>
      rw [hp] at h
      simp at h
      exact .inl h
    | error err =>
      rw [hp] at h
      cases rem with
      | zero =>
        simp at h
        exact .inl h
      | succ rem' =>
        simp only [List.mem_cons] at h
        rcases h with h | h | h
        · exact .inl h
        · exact .inr h
        · exact testConnectionLoop_events probe (rem' + 1) (i + 1) e h

lemma insertUsersLoop_events : ∀ (us : List User) (db : DB) (e : Ev),
    e ∈ (insertUsersLoop us db).1 → e = Ev.insertRow .users
  | [], _, _, h => by simp [insertUsersLoop] at h
  | u :: rest, db, e, h => by
    simp only [insertUsersLoop] at h
    cases hs : insertUser u (bcrypt_hash u.password 10) db with
    | error err => rw [hs] at h; simpa using h
    | ok db1 =>
      rw [hs] at h
      simp only [List.mem_cons] at h
      rcases h with h | h
      · exact h
      · exact insertUsersLoop_events rest db1 e h

lemma insertCustomersLoop_events : ∀ (cs : List Customer) (db : DB) (e : Ev),
    e ∈ (insertCustomersLoop cs db).1 → e = Ev.insertRow .customers
  | [], _, _, h => by simp [insertCustomersLoop] at h
  | c :: rest, db, e, h => by
    simp only [insertCustomersLoop] at h
    cases hs : insertCustomer c db with
    | error err => rw [hs] at h; simpa using h
    | ok db1 =>
      rw [hs] at h
      simp only [List.mem_cons] at h
      rcases h with h | h
      · exact h
      · exact insertCustomersLoop_events rest db1 e h

lemma insertInvoicesLoop_events : ∀ (invs : List InvoiceData) (db : DB) (e : Ev),
    e ∈ (insertInvoicesLoop invs db).1 → e = Ev.insertRow .invoices
  | [], _, _, h => by simp [insertInvoicesLoop] at h
  | inv :: rest, db, e, h => by
    simp only [insertInvoicesLoop] at h
    cases hs : insertInvoice inv db with
    | error err => rw [hs] at h; simpa using h
    | ok db1 =>
      rw [hs] at h
      simp only [List.mem_cons] at h
      rcases h with h | h
      · exact h
      · exact insertInvoicesLoop_events rest db1 e h

lemma insertRevenueLoop_events : ∀ (rvs : List RevenueData) (db : DB) (e : Ev),
    e ∈ (insertRevenueLoop rvs db).1 → e = Ev.insertRow .revenue
  | [], _, _, h => by simp [insertRevenueLoop] at h
  | rv :: rest, db, e, h => by
    simp only [insertRevenueLoop] at h
    cases hs : insertRevenue rv db with
    | error err => rw [hs] at h; simpa using h
    | ok db1 =>
      rw [hs] at h
      simp only [List.mem_cons] at h
      rcases h with h | h
      · exact h
      · exact insertRevenueLoop_events rest db1 e h

lemma seedUsers_events (us : List User) (db : DB) (e : Ev)
    (h : e ∈ (seedUsers us db).1) :
    e = .createExtension ∨ e = .createTable .users ∨ e = .insertRow .users := by
  simp only [seedUsers, List.mem_cons] at h
  rcases h with h | h | h
  · exact .inl h
  · exact .inr (.inl h)
  · exact .inr (.inr (insertUsersLoop_events us _ e h))

lemma seedCustomers_events (cs : List Customer) (db : DB) (e : Ev)
    (h : e ∈ (seedCustomers cs db).1) :
    e = .createExtension ∨ e = .createTable .customers ∨ e = .insertRow .customers := by
  simp only [seedCustomers, List.mem_cons] at h
  rcases h with h | h | h
  · exact .inl h
  · exact .inr (.inl h)
  · exact .inr (.inr (insertCustomersLoop_events cs _ e h))

lemma seedInvoices_events (invs : List InvoiceData) (db : DB) (e : Ev)
    (h : e ∈ (seedInvoices invs db).1) :
    e = .createExtension ∨ e = .createTable .invoices ∨ e = .insertRow .invoices := by
  simp only [seedInvoices, List.mem_cons] at h
  rcases h with h | h | h
  · exact .inl h
  · exact .inr (.inl h)
  · exact .inr (.inr (insertInvoicesLoop_events invs _ e h))

lemma seedRevenue_events (rvs : List RevenueData) (db : DB) (e : Ev)
    (h : e ∈ (seedRevenue rvs db).1) :
    e = .createTable .revenue ∨ e = .insertRow .revenue := by
  simp only [seedRevenue, List.mem_cons] at h
  rcases h with h | h
  · exact .inl h
  · exact .inr (insertRevenueLoop_events rvs _ e h)

lemma mem_seqE (e : Ev) (r : List Ev × Except String DB)
    (f : DB → List Ev × Except String DB) (h : e ∈ (seqE r f).1) :
    e ∈ r.1 ∨ ∃ db, e ∈ (f db).1 := by
  rcases r with ⟨tr, res⟩
  cases res with
  | error err => simp only [seqE] at h; exact .inl h
  | ok db =>
    simp only [seqE, List.mem_append] at h
    rcases h with h | h
    · exact .inl h
    · exact .inr ⟨db, h⟩

lemma seedBody_events (data : SampleData) (db : DB) (e : Ev)
    (h : e ∈ (seedBody data db).1) :
    e = .createExtension ∨ (∃ t, e = .createTable t) ∨ ∃ t, e = .insertRow t := by
  simp only [seedBody] at h
  rcases mem_seqE e _ _ h with h | ⟨db1, h⟩
  · rcases seedUsers_events _ _ _ h with h | h | h
    · exact .inl h
    · exact .inr (.inl ⟨_, h⟩)
    · exact .inr (.inr ⟨_, h⟩)
  · rcases mem_seqE e _ _ h with h | ⟨db2, h⟩
    · rcases seedCustomers_events _ _ _ h with h | h | h
      · exact .inl h
      · exact .inr (.inl ⟨_, h⟩)
      · exact .inr (.inr ⟨_, h⟩)
    · rcases mem_seqE e _ _ h with h | ⟨db3, h⟩
      · rcases seedInvoices_events _ _ _ h with h | h | h
        · exact .inl h
        · exact .inr (.inl ⟨_, h⟩)
        · exact .inr (.inr ⟨_, h⟩)
      · rcases seedRevenue_events _ _ _ h with h | h
        · exact .inr (.inl ⟨_, h⟩)
        · exact .inr (.inr ⟨_, h⟩)

lemma seedAllTx_events (data : SampleData) (db : DB) (e : Ev)
    (h : e ∈ (seedAllTx data db).1) :
    e = .beginTx ∨ e = .commitTx ∨ e = .rollbackTx ∨ e = .createExtension ∨
      (∃ t, e = .createTable t) ∨ ∃ t, e = .insertRow t := by
  rcases hb : seedBody data db with ⟨tr, res⟩
  have hmem : e ∈ tr → e = .createExtension ∨ (∃ t, e = .createTable t) ∨ ∃ t, e = .insertRow t := by
    intro hm
    have := seedBody_events data db e (by rw [hb]; exact hm)
    exact this
  cases res with
  | ok db1 =>
    simp only [seedAllTx, hb, List.mem_cons, List.mem_append] at h
    rcases h with (h | h) | h
    · exact .inl h
    · rcases hmem h with h | h | h
      · exact .inr (.inr (.inr (.inl h)))
      · exact .inr (.inr (.inr (.inr (.inl h))))
      · exact .inr (.inr (.inr (.inr (.inr h))))
    · rcases h with h | h
      · exact .inr (.inl h)
      · simp at h
  | error err =>
    simp only [seedAllTx, hb, List.mem_cons, List.mem_append] at h
    rcases h with (h | h) | h
    · exact .inl h
    · rcases hmem h with h | h | h
      · exact .inr (.inr (.inr (.inl h)))
      · exact .inr (.inr (.inr (.inr (.inl h))))
      · exact .inr (.inr (.inr (.inr (.inr h))))
    · rcases h with h | h
      · exact .inr (.inr (.inl h))
      · simp at h

lemma countP_zero {α : Type} (p : α → Bool) : ∀ (l : List α),
    (∀ e ∈ l, p e = false) → l.countP p = 0
  | [], _ => rfl
  | a :: l, h => by
    simp [List.countP_cons, h a (by simp), countP_zero p l (fun e he => h e (by simp [he]))]

lemma paraSub (pre p post : String) : p.data <:+: (pre ++ p ++ post).data :=
  ⟨pre.data, post.data, by simp [String.data_append]⟩

lemma paraSub_renderPage (t c h p : String) : p.data <:+: (renderPage t c h p).data := by
  unfold renderPage
  exact paraSub _ _ _

lemma msgSub_errorPara (msg : String) : msg.data <:+: ("Error: " ++ msg).data :=
  ⟨"Error: ".data, [], by simp [String.data_append]⟩

lemma msgSub_connErrorBody (msg : String) : msg.data <:+: (connErrorBody msg).data := by
  unfold connErrorBody
  exact (msgSub_errorPara msg).trans (paraSub_renderPage _ _ _ _)

lemma msgSub_seedErrorBody (msg : String) : msg.data <:+: (seedErrorBody msg).data := by
  unfold seedErrorBody
  exact (msgSub_errorPara msg).trans (paraSub_renderPage _ _ _ _)

lemma filterMap_all_insertRow (t : TableName) : ∀ (l : List Ev),
    (∀ e ∈ l, e = Ev.insertRow t) → l.filterMap tableOf = List.replicate l.length t
  | [], _ => rfl
  | a :: l, h => by
    have ha := h a (by simp)
    subst ha
    simp [List.filterMap_cons, tableOf, List.replicate_succ,
      filterMap_all_insertRow t l (fun e he => h e (by simp [he]))]

lemma seedUsers_tableEvents (us : List User) (db : DB) : ∃ n, 0 < n ∧
    (seedUsers us db).1.filterMap tableOf = List.replicate n TableName.users := by
  refine ⟨(insertUsersLoop us (createUsersTable db)).1.length + 1, by omega, ?_⟩
  show (Ev.createExtension :: Ev.createTable .users ::
    (insertUsersLoop us (createUsersTable db)).1).filterMap tableOf = _
  rw [List.filterMap_cons, List.filterMap_cons,
    filterMap_all_insertRow TableName.users _ (insertUsersLoop_events us _)]
  simp [tableOf, List.replicate_succ]

lemma seedCustomers_tableEvents (cs : List Customer) (db : DB) : ∃ n, 0 < n ∧
    (seedCustomers cs db).1.filterMap tableOf = List.replicate n TableName.customers := by
  refine ⟨(insertCustomersLoop cs (createCustomersTable db)).1.length + 1, by omega, ?_⟩
  show (Ev.createExtension :: Ev.createTable .customers ::
    (insertCustomersLoop cs (createCustomersTable db)).1).filterMap tableOf = _
  rw [List.filterMap_cons, List.filterMap_cons,
    filterMap_all_insertRow TableName.customers _ (insertCustomersLoop_events cs _)]
  simp [tableOf, List.replicate_succ]

lemma seedInvoices_tableEvents (invs : List InvoiceData) (db : DB) : ∃ n, 0 < n ∧
    (seedInvoices invs db).1.filterMap tableOf = List.replicate n TableName.invoices := by
  refine ⟨(insertInvoicesLoop invs (createInvoicesTable db)).1.length + 1, by omega, ?_⟩
  show (Ev.createExtension :: Ev.createTable .invoices ::
    (insertInvoicesLoop invs (createInvoicesTable db)).1).filterMap tableOf = _
  rw [List.filterMap_cons, List.filterMap_cons,
    filterMap_all_insertRow TableName.invoices _ (insertInvoicesLoop_events invs _)]
  simp [tableOf, List.replicate_succ]

lemma seedRevenue_tableEvents (rvs : List RevenueData) (db : DB) : ∃ n, 0 < n ∧
    (seedRevenue rvs db).1.filterMap tableOf = List.replicate n TableName.revenue := by
  refine ⟨(insertRevenueLoop rvs (createRevenueTable db)).1.length + 1, by omega, ?_⟩
  show (Ev.createTable .revenue ::
    (insertRevenueLoop rvs (createRevenueTable db)).1).filterMap tableOf = _
  rw [List.filterMap_cons,
    filterMap_all_insertRow TableName.revenue _ (insertRevenueLoop_events rvs _)]
  simp [tableOf, List.replicate_succ]

/-- Claim C1 (code bug): the claim says invoking the seed operation twice
against an empty database yields the same row counts as invoking it once,
every row insert being a no-op when the target row exists.  The code
violates this for invoices: the insert names no `id` column, so the
`ON CONFLICT (id) DO NOTHING` clause never fires and the second run inserts
a second copy of every invoice (counts go from (1, 2, 2, 2) to
(1, 2, 4, 2)); users, customers and revenue counts are unchanged. -/
theorem seed_twice_duplicates_invoice_rows :
    (seedAllTx sampleData emptyDB).2.map counts = .ok (1, 2, 2, 2) ∧
    (runTwice sampleData emptyDB).map counts = .ok (1, 2, 4, 2) ∧
    sampleData.users.length = 1 ∧ sampleData.customers.length = 2 ∧
    sampleData.invoices.length = 2 ∧ sampleData.revenue.length = 2 := by
  decide

/-- Claim C2: the four seed procedures run inside a single all-or-nothing
transaction; if any error occurs during the table-creation/insertion phase,
the transaction is rolled back as a unit, the database state visible after
the request equals the state before it (no partial commit across the four
tables), and the handler returns the seeding-error page. -/
theorem seed_tx_error_rolls_back_all_tables
    (env : Env) (probe : Nat → Except String Unit) (data : SampleData) (db0 : DB)
    (url : String) (e : String)
    (henv : env.postgresUrl = some url)
    (hconn : (testConnection probe 3).2 = .ok ())
    (hseed : (seedAllTx data db0).2 = .error e) :
    (GET env probe data db0).2.1 = db0 ∧
    (GET env probe data db0).2.2 = seedErrorResponse e := by
  obtain ⟨pu⟩ := env
  simp only [Env.postgresUrl] at henv
  subst henv
  rcases htc : testConnection probe 3 with ⟨t1, r1⟩
  have hr1 : r1 = Except.ok () := by rw [htc] at hconn; exact hconn
  subst hr1
  rcases hsd : seedAllTx data db0 with ⟨t2, r2⟩
  have hr2 : r2 = Except.error e := by rw [hsd] at hseed; exact hseed
  subst hr2
  simp [GET, htc, hsd]

/-- Witness for claim C2 at a concrete input: duplicate sample emails make
the transaction fail partway (after the users table and one row were
written inside it), and the visible state afterwards is the empty
database. -/
theorem seed_tx_error_rolls_back_all_tables_witness :
    (seedAllTx dupEmailData emptyDB).2 =
      .error "duplicate key value violates unique constraint users_email_key" ∧
    (GET ⟨some "postgres://localhost:5432/db"⟩ (fun _ => .ok ()) dupEmailData emptyDB).2.1 =
      emptyDB :=
  ⟨by decide,
   (seed_tx_error_rolls_back_all_tables ⟨some "postgres://localhost:5432/db"⟩
      (fun _ => .ok ()) dupEmailData emptyDB "postgres://localhost:5432/db"
      "duplicate key value violates unique constraint users_email_key"
      rfl rfl (by decide)).1⟩

/-- Claim C5: if the required configuration value `POSTGRES_URL` is absent,
the handler performs zero database calls and returns the
missing-configuration error page with HTTP status 500, short-circuiting
before any network activity (only the release of the never-connected pool
remains in the trace). -/
theorem missing_config_short_circuits (probe : Nat → Except String Unit)
    (data : SampleData) (db0 : DB) :
    GET ⟨none⟩ probe data db0 = ([.release], db0, envErrorResponse) ∧
    ((GET ⟨none⟩ probe data db0).1.countP isDbCall) = 0 ∧
    (GET ⟨none⟩ probe data db0).2.2.status = 500 :=
  ⟨rfl, rfl, rfl⟩

/-- Claim C9: on every exit path of the handler (missing configuration,
connection failure, seeding failure, success) the database connection
resource is released exactly once before the handler returns. -/
theorem connection_released_exactly_once (env : Env) (probe : Nat → Except String Unit)
    (data : SampleData) (db0 : DB) :
    ((GET env probe data db0).1.countP isRelease) = 1 := by
  obtain ⟨pu⟩ := env
  cases pu with
  | none => rfl
  | some url =>
    rcases htc : testConnection probe 3 with ⟨t1, r1⟩
    have ht1 : t1.countP isRelease = 0 := by
      apply countP_zero
      intro e he
      have he' : e ∈ (testConnection probe 3).1 := by rw [htc]; exact he
      rcases testConnectionLoop_events probe 3 0 e he' with h | h <;> simp [h, isRelease]
    cases r1 with
    | error e =>
      simp [GET, htc, List.countP_append, ht1, List.countP_cons, isRelease]
    | ok u =>
      rcases hsd : seedAllTx data db0 with ⟨t2, r2⟩
      have ht2 : t2.countP isRelease = 0 := by
        apply countP_zero
        intro e he
        have he' : e ∈ (seedAllTx data db0).1 := by rw [hsd]; exact he
        rcases seedAllTx_events data db0 e he' with h | h | h | h | ⟨t, h⟩ | ⟨t, h⟩ <;>
          simp [h, isRelease]
      cases r2 with
      | error e =>
        simp [GET, htc, hsd, List.countP_append, ht1, ht2, List.countP_cons, isRelease]
      | ok db1 =>
        simp [GET, htc, hsd, List.countP_append, ht1, ht2, List.countP_cons, isRelease]

/-- Claim C10 (implicit): in the connection-error and seeding-error
responses, the message string of the underlying error is interpolated
verbatim into the HTML body with no escaping transformation: the raw
character sequence of the message, markup characters included, occurs as
a contiguous infix of the returned page. -/
theorem error_message_interpolated_verbatim (msg : String) :
    msg.data <:+: (connErrorResponse msg).body.data ∧
    msg.data <:+: (seedErrorResponse msg).body.data :=
  ⟨msgSub_connErrorBody msg, msgSub_seedErrorBody msg⟩

/-- Claim C6: if every connectivity probe attempt times out, the handler
performs no schema or seed calls and returns the connection-error page
(HTTP 500, the timeout message interpolated into the body) after exactly
3 attempts, each bounded by the 15000 ms timeout, with the fixed 3000 ms
delay between consecutive attempts. -/
theorem all_probes_timeout_behavior (env : Env) (probe : Nat → Except String Unit)
    (data : SampleData) (db0 : DB) (url : String)
    (henv : env.postgresUrl = some url)
    (hp : ∀ i, i < 3 → probe i = .error timeoutMsg) :
    GET env probe data db0 =
      ([.probeAttempt probeTimeoutMs, .delay retryDelayMs, .probeAttempt probeTimeoutMs,
        .delay retryDelayMs, .probeAttempt probeTimeoutMs, .release], db0,
       connErrorResponse timeoutMsg) ∧
    ((GET env probe data db0).1.countP isProbe) = 3 ∧
    ((GET env probe data db0).1.countP isSchemaOrSeedCall) = 0 ∧
    (GET env probe data db0).2.2.status = 500 ∧
    timeoutMsg.data <:+: (GET env probe data db0).2.2.body.data := by
  obtain ⟨pu⟩ := env
  simp only [Env.postgresUrl] at henv
  subst henv
  have htc := testConnection_all_timeout probe timeoutMsg hp
  have hmain : GET ⟨some url⟩ probe data db0 =
      ([.probeAttempt probeTimeoutMs, .delay retryDelayMs, .probeAttempt probeTimeoutMs,
        .delay retryDelayMs, .probeAttempt probeTimeoutMs, .release], db0,
       connErrorResponse timeoutMsg) := by
    simp [GET, htc]
  refine ⟨hmain, ?_, ?_, ?_, ?_⟩
  · rw [hmain]
    rfl
  · rw [hmain]
    rfl
  · rw [hmain]
    rfl
  · rw [hmain]
    exact msgSub_connErrorBody timeoutMsg

/-- Witness for claim C6 at a concrete input: a probe that always times
out. -/
theorem all_probes_timeout_behavior_witness :
    ((3 : Nat) - 1 < 3) ∧
    GET ⟨some "postgres://localhost:5432/db"⟩ (fun _ => .error timeoutMsg) sampleData emptyDB =
      ([.probeAttempt probeTimeoutMs, .delay retryDelayMs, .probeAttempt probeTimeoutMs,
        .delay retryDelayMs, .probeAttempt probeTimeoutMs, .release], emptyDB,
       connErrorResponse timeoutMsg) :=
  ⟨by omega,
   (all_probes_timeout_behavior ⟨some "postgres://localhost:5432/db"⟩
      (fun _ => .error timeoutMsg) sampleData emptyDB "postgres://localhost:5432/db"
      rfl (fun _ _ => rfl)).1⟩

/-- Claim C7: within the single transaction the four seed procedures are
executed sequentially in the fixed order users, customers, invoices,
revenue: the table-touching statements of the run form four contiguous
non-empty blocks in exactly that order, so each procedure completes before
the next one starts. -/
theorem seed_procedures_fixed_order (data : SampleData) (db0 : DB) (db1 : DB)
    (h : (seedAllTx data db0).2 = .ok db1) :
    ∃ a b c d, 0 < a ∧ 0 < b ∧ 0 < c ∧ 0 < d ∧
      (seedAllTx data db0).1.filterMap tableOf =
        List.replicate a TableName.users ++ List.replicate b TableName.customers ++
        List.replicate c TableName.invoices ++ List.replicate d TableName.revenue := by
  rcases hu : seedUsers data.users db0 with ⟨t1, r1⟩
  cases r1 with
  | error e =>
    exfalso
    have : (seedAllTx data db0).2 = .error e := by
      simp [seedAllTx, seedBody, hu, seqE]
    rw [this] at h
    cases h
  | ok dbu =>
    rcases hc : seedCustomers data.customers dbu with ⟨t2, r2⟩
    cases r2 with
    | error e =>
      exfalso
      have : (seedAllTx data db0).2 = .error e := by
        simp [seedAllTx, seedBody, hu, hc, seqE]
      rw [this] at h
      cases h
    | ok dbc =>
      rcases hi : seedInvoices data.invoices dbc with ⟨t3, r3⟩
      cases r3 with
      | error e =>
        exfalso
        have : (seedAllTx data db0).2 = .error e := by
          simp [seedAllTx, seedBody, hu, hc, hi, seqE]
        rw [this] at h
        cases h
      | ok dbi =>
        rcases hr : seedRevenue data.revenue dbi with ⟨t4, r4⟩
        cases r4 with
        | error e =>
          exfalso
          have : (seedAllTx data db0).2 = .error e := by
            simp [seedAllTx, seedBody, hu, hc, hi, hr, seqE]
          rw [this] at h
          cases h
        | ok dbr =>
          obtain ⟨a, ha, hta⟩ := seedUsers_tableEvents data.users db0
          obtain ⟨b, hb, htb⟩ := seedCustomers_tableEvents data.customers dbu
          obtain ⟨c, hcpos, htc⟩ := seedInvoices_tableEvents data.invoices dbc
          obtain ⟨d, hd, htd⟩ := seedRevenue_tableEvents data.revenue dbi
          rw [hu] at hta
          rw [hc] at htb
          rw [hi] at htc
          rw [hr] at htd
          refine ⟨a, b, c, d, ha, hb, hcpos, hd, ?_⟩
          have htr : (seedAllTx data db0).1 =
              (Ev.beginTx :: (t1 ++ (t2 ++ (t3 ++ t4)))) ++ [Ev.commitTx] := by
            simp [seedAllTx, seedBody, hu, hc, hi, hr, seqE]
          rw [htr]
          simp only [List.filterMap_append, List.filterMap_cons, tableOf]
          rw [hta, htb, htc, htd]
          simp

/-- Witness for claim C7 at a concrete input: the sample run succeeds and
its trace decomposes into the four ordered blocks. -/
theorem seed_procedures_fixed_order_witness :
    (seedAllTx sampleData emptyDB).2 = .ok (seededDB sampleData) ∧
    (∃ a b c d, 0 < a ∧ 0 < b ∧ 0 < c ∧ 0 < d ∧
      (seedAllTx sampleData emptyDB).1.filterMap tableOf =
        List.replicate a TableName.users ++ List.replicate b TableName.customers ++
        List.replicate c TableName.invoices ++ List.replicate d TableName.revenue) :=
  ⟨by decide,
   seed_procedures_fixed_order sampleData emptyDB (seededDB sampleData) (by decide)⟩

/-- Claim C4: after a successful seeding run against an empty database the
row count of each of the four tables equals the size of the corresponding
static sample set, and no two rows of a table share a primary key or
declared unique column value (users id and email, customers id, invoices
id, revenue month). -/
theorem seed_counts_and_unique_keys (data : SampleData)
    (hui : (data.users.map User.id).Nodup)
    (hue : (data.users.map User.email).Nodup)
    (hci : (data.customers.map Customer.id).Nodup)
    (hrm : (data.revenue.map RevenueData.month).Nodup) :
    ∃ tr db1, seedAllTx data emptyDB = (tr, .ok db1) ∧
      usersCount db1 = data.users.length ∧
      customersCount db1 = data.customers.length ∧
      invoicesCount db1 = data.invoices.length ∧
      revenueCount db1 = data.revenue.length ∧
      ((db1.users.getD []).map UserRow.id).Nodup ∧
      ((db1.users.getD []).map UserRow.email).Nodup ∧
      ((db1.customers.getD []).map CustomerRow.id).Nodup ∧
      ((db1.invoices.getD []).map InvoiceRow.id).Nodup ∧
      ((db1.revenue.getD []).map RevenueRow.month).Nodup := by
  have h := seedAllTx_emptyDB_ok data hui hue hci hrm
  rcases hp : seedAllTx data emptyDB with ⟨tr, r⟩
  rw [hp] at h
  simp only at h
  subst h
  refine ⟨tr, seededDB data, rfl, ?_, ?_, ?_, ?_, ?_, ?_, ?_, ?_, ?_⟩
  · simp [usersCount, seededDB]
  · simp [customersCount, seededDB]
  · simp [invoicesCount, seededDB, genInvoiceRows_length]
  · simp [revenueCount, seededDB]
  · simpa [seededDB, map_id_mkUserRow] using hui
  · simpa [seededDB, map_email_mkUserRow] using hue
  · simpa [seededDB, map_id_mkCustomerRow] using hci
  · simp [seededDB, genInvoiceRows_ids]
    exact genUuids_nodup _ _
  · simpa [seededDB, map_month_mkRevenueRow] using hrm

/-- Witness for claim C4 at the concrete sample data. -/
theorem seed_counts_and_unique_keys_witness :
    ((sampleData.users.map User.id).Nodup ∧
     (sampleData.users.map User.email).Nodup ∧
     (sampleData.customers.map Customer.id).Nodup ∧
     (sampleData.revenue.map RevenueData.month).Nodup) ∧
    ∃ tr db1, seedAllTx sampleData emptyDB = (tr, .ok db1) ∧
      usersCount db1 = sampleData.users.length ∧
      customersCount db1 = sampleData.customers.length ∧
      invoicesCount db1 = sampleData.invoices.length ∧
      revenueCount db1 = sampleData.revenue.length ∧
      ((db1.users.getD []).map UserRow.id).Nodup ∧
      ((db1.users.getD []).map UserRow.email).Nodup ∧
      ((db1.customers.getD []).map CustomerRow.id).Nodup ∧
      ((db1.invoices.getD []).map InvoiceRow.id).Nodup ∧
      ((db1.revenue.getD []).map RevenueRow.month).Nodup :=
  ⟨⟨by decide, by decide, by decide, by decide⟩,
   seed_counts_and_unique_keys sampleData (by decide) (by decide) (by decide) (by decide)⟩

/-- Claim C3 counterexample: the claim says the identifier stored for every
seeded row equals the identifier of the corresponding static sample record.
For invoices this is false: the insert supplies no `id`, so the stored
identifiers are the database-generated ones and differ from every sample
invoice identifier. -/
theorem invoice_id_not_sample_constant :
    (seedAllTx sampleData emptyDB).2.map (fun db => (db.invoices.getD []).map InvoiceRow.id) =
      .ok ["uuid-", "uuid-*"] ∧
    sampleData.invoices.map InvoiceData.id =
      ["ba4a9e71-3206-493e-84b4-35a6b6e5a22f", "725c4d1d-41f2-4c7d-b921-6c7c4b6e5a10"] ∧
    ("uuid-" : String) ≠ "ba4a9e71-3206-493e-84b4-35a6b6e5a22f" ∧
    (∀ s ∈ ["uuid-", "uuid-*"], s ∉ sampleData.invoices.map InvoiceData.id) := by
  refine ⟨by decide, by decide, by decide, by decide⟩

/-- Claim C3 (amended): identifiers of seeded user and customer rows and
the unique month labels of seeded revenue rows are the stable pre-seeded
constants of the corresponding static sample records; seeded invoice rows
instead carry database-generated identifiers, not taken from the sample
data. -/
theorem seeded_identifiers_characterization (data : SampleData)
    (hui : (data.users.map User.id).Nodup)
    (hue : (data.users.map User.email).Nodup)
    (hci : (data.customers.map Customer.id).Nodup)
    (hrm : (data.revenue.map RevenueData.month).Nodup) :
    ∃ tr db1, seedAllTx data emptyDB = (tr, .ok db1) ∧
      (db1.users.getD []).map UserRow.id = data.users.map User.id ∧
      (db1.customers.getD []).map CustomerRow.id = data.customers.map Customer.id ∧
      (db1.revenue.getD []).map RevenueRow.month = data.revenue.map RevenueData.month ∧
      (db1.invoices.getD []).map InvoiceRow.id = genUuids 0 data.invoices.length := by
  have h := seedAllTx_emptyDB_ok data hui hue hci hrm
  rcases hp : seedAllTx data emptyDB with ⟨tr, r⟩
  rw [hp] at h
  simp only at h
  subst h
  refine ⟨tr, seededDB data, rfl, ?_, ?_, ?_, ?_⟩
  · simp [seededDB, map_id_mkUserRow, mkUserRow]
  · simp [seededDB, map_id_mkCustomerRow, mkCustomerRow]
  · simp [seededDB, map_month_mkRevenueRow, mkRevenueRow]
  · simp [seededDB, genInvoiceRows_ids]

/-- Witness for the amended claim C3 at the concrete sample data. -/
theorem seeded_identifiers_characterization_witness :
    ((sampleData.users.map User.id).Nodup ∧
     (sampleData.revenue.map RevenueData.month).Nodup) ∧
    ∃ tr db1, seedAllTx sampleData emptyDB = (tr, .ok db1) ∧
      (db1.users.getD []).map UserRow.id = sampleData.users.map User.id ∧
      (db1.customers.getD []).map CustomerRow.id = sampleData.customers.map Customer.id ∧
      (db1.revenue.getD []).map RevenueRow.month = sampleData.revenue.map RevenueData.month ∧
      (db1.invoices.getD []).map InvoiceRow.id = genUuids 0 sampleData.invoices.length :=
  ⟨⟨by decide, by decide⟩,
   seeded_identifiers_characterization sampleData (by decide) (by decide) (by decide) (by decide)⟩

/-- Claim C8: for every user of the static sample set, the password value
inserted for that user is the bcrypt hash with cost factor 10 of the
plaintext password of that same user (the list of stored passwords is the
positional image of the sample list under hashing), and the stored value
is never equal to the plaintext. -/
theorem passwords_bcrypt_hashed_positionally (data : SampleData)
    (hui : (data.users.map User.id).Nodup)
    (hue : (data.users.map User.email).Nodup)
    (hci : (data.customers.map Customer.id).Nodup)
    (hrm : (data.revenue.map RevenueData.month).Nodup) :
    ∃ tr db1, seedAllTx data emptyDB = (tr, .ok db1) ∧
      (db1.users.getD []).map UserRow.password =
        data.users.map (fun u => bcrypt_hash u.password 10) ∧
      ∀ u ∈ data.users, bcrypt_hash u.password 10 ≠ u.password := by
  have h := seedAllTx_emptyDB_ok data hui hue hci hrm
  rcases hp : seedAllTx data emptyDB with ⟨tr, r⟩
  rw [hp] at h
  simp only at h
  subst h
  refine ⟨tr, seededDB data, rfl, ?_, fun u _ => bcrypt_hash_ne u.password 10⟩
  simp [seededDB, map_password_mkUserRow, mkUserRow]

/-- Witness for claim C8 at the concrete sample data. -/
theorem passwords_bcrypt_hashed_positionally_witness :
    ((sampleData.users.map User.id).Nodup ∧
     (sampleData.users.map User.email).Nodup) ∧
    ∃ tr db1, seedAllTx sampleData emptyDB = (tr, .ok db1) ∧
      (db1.users.getD []).map UserRow.password =
        sampleData.users.map (fun u => bcrypt_hash u.password 10) ∧
      ∀ u ∈ sampleData.users, bcrypt_hash u.password 10 ≠ u.password :=
  ⟨⟨by decide, by decide⟩,
   passwords_bcrypt_hashed_positionally sampleData (by decide) (by decide) (by decide)
     (by decide)⟩

end SeedRoute
